import Mathlib

/-!
Shallow embedding of the scroll-coordination core of `stars.js`
(the star-background parallax system).

Numbers are modelled as rationals. The browser environment read by the
handlers (`window.scrollY`, `document.body.scrollHeight`,
`window.innerHeight`) is an explicit record; mutation of the module-level
`virtualScrollY` variable is explicit state passing; the
`requestAnimationFrame` / `ticking` coalescing is a small-step system over
an event trace.
-/

namespace Stars

/-- `CONFIG.virtualScroll` in `stars.js`: the maximum virtual scroll
distance and the wheel sensitivity multiplier. -/
structure VirtualScrollConfig where
  maxOffset : ℚ
  sensitivity : ℚ
deriving DecidableEq, Repr

/-- The concrete configuration object of the source:
`maxOffset: 2000`, `sensitivity: 1.0`. -/
def CONFIG_virtualScroll : VirtualScrollConfig := ⟨2000, 1⟩

/-- `CONFIG.parallax` layer coefficients `layer1 .. layer5`
(1.0, 0.7, 0.45, 0.25, 0.10); other indices name no layer. -/
def parallaxCoeff : ℕ → ℚ
  | 1 => 1
  | 2 => 7/10
  | 3 => 9/20
  | 4 => 1/4
  | 5 => 1/10
  | _ => 0

/-- Ambient browser readings at the moment a handler runs. -/
structure Env where
  scrollY : ℚ
  scrollHeight : ℚ
  innerHeight : ℚ
deriving DecidableEq, Repr

/-- `Math.max(0, document.body.scrollHeight - window.innerHeight)`,
computed identically at lines 186 and 209 of `stars.js`. -/
def maxRealScroll (env : Env) : ℚ :=
  max 0 (env.scrollHeight - env.innerHeight)

/-- `getEffectiveScroll` of `setupCombinedScrollParallax` (lines 183-196).
It both returns the effective position and may write `virtualScrollY`
(reset to 0 when not at the bottom), so it is state passing:
the result is `(returned position, virtualScrollY after the call)`. -/
def getEffectiveScroll (env : Env) (virtualScrollY : ℚ) : ℚ × ℚ :=
  let realScroll := env.scrollY
  let m := maxRealScroll env
  if realScroll ≥ m - 5 then
    (realScroll + virtualScrollY, virtualScrollY)
  else
    (realScroll, 0)

/-- The wheel handler of `setupCombinedScrollParallax` (lines 208-229,
state mutation only; the frame scheduling is modelled separately).
Result: `(virtualScrollY after the call, whether e.preventDefault() ran)`. -/
def combinedOnWheel (cfg : VirtualScrollConfig) (env : Env)
    (virtualScrollY deltaY : ℚ) : ℚ × Bool :=
  let maxRS := maxRealScroll env
  if 5 < maxRS then
    if env.scrollY ≥ maxRS - 5 ∧ 0 < deltaY then
      (min cfg.maxOffset (virtualScrollY + deltaY * cfg.sensitivity), false)
    else if 0 < virtualScrollY ∧ deltaY < 0 then
      let v' := max 0 (virtualScrollY + deltaY * cfg.sensitivity)
      (v', decide (0 < v'))
    else
      (virtualScrollY, false)
  else
    (max 0 (min cfg.maxOffset (virtualScrollY + deltaY * cfg.sensitivity)), false)

/-- The wheel handler of `setupVirtualScrollParallax` (lines 159-164,
state mutation only): accumulate then clamp to `[0, maxOffset]`. -/
def virtualOnWheel (cfg : VirtualScrollConfig)
    (virtualScrollY deltaY : ℚ) : ℚ :=
  max 0 (min cfg.maxOffset (virtualScrollY + deltaY * cfg.sensitivity))

/-- Offset applied to layer `i` for a given scroll value:
`-scrollValue * CONFIG.parallax[layer i]` (line 132). -/
def layerOffset (scrollValue : ℚ) (i : ℕ) : ℚ :=
  -scrollValue * parallaxCoeff i

/-- One iteration of the `updateStarPositions` loop: look up layer `i`
(`some` = element exists, carrying its current translateY) and, when
present, set its transform; a missing layer is skipped. -/
def applyLayer (scrollValue : ℚ) (dom : ℕ → Option ℚ) (i : ℕ) :
    ℕ → Option ℚ :=
  match dom i with
  | some _ => fun j => if j = i then some (layerOffset scrollValue i) else dom j
  | none => dom

/-- `updateStarPositions` (lines 128-135): the loop `for i = 1..5`. -/
def updateStarPositions (scrollValue : ℚ) (dom : ℕ → Option ℚ) :
    ℕ → Option ℚ :=
  (List.range' 1 5).foldl (applyLayer scrollValue) dom

/-- An external stimulus: a scroll event or a wheel event (each carrying
the ambient browser readings at that moment), or an animation-frame
boundary at which scheduled `requestAnimationFrame` callbacks run. -/
inductive Step where
  | scroll (env : Env)
  | wheel (env : Env) (deltaY : ℚ)
  | frame
deriving DecidableEq, Repr

/-- State of a running `setupCombinedScrollParallax` instance: the
`ticking` flag, the latest browser readings, the module-level
`virtualScrollY`, and the log of positions passed to
`updateStarPositions` (most recent first). -/
structure CombinedState where
  ticking : Bool
  env : Env
  virtualScrollY : ℚ
  renders : List ℚ
deriving DecidableEq, Repr

/-- One step of `setupCombinedScrollParallax` (lines 198-238): `onScroll`
and `onWheel` update state and schedule at most one frame callback via
`ticking`; at a frame boundary the scheduled callback (if any) renders
`getEffectiveScroll()` and clears `ticking`. -/
def combinedStep (cfg : VirtualScrollConfig) (s : CombinedState) :
    Step → CombinedState
  | .scroll env => { s with env := env, ticking := true }
  | .wheel env d =>
      { s with env := env,
               virtualScrollY := (combinedOnWheel cfg env s.virtualScrollY d).1,
               ticking := true }
  | .frame =>
      if s.ticking then
        let r := getEffectiveScroll s.env s.virtualScrollY
        { s with ticking := false, virtualScrollY := r.2,
                 renders := r.1 :: s.renders }
      else s

/-- Run a Combined-mode instance over a trace of steps. -/
def combinedRun (cfg : VirtualScrollConfig) (s : CombinedState)
    (steps : List Step) : CombinedState :=
  steps.foldl (combinedStep cfg) s

/-- State of a running `setupRealScrollParallax` instance
(lines 138-153): no wheel listener, renders `window.scrollY`. -/
structure RealState where
  ticking : Bool
  env : Env
  renders : List ℚ
deriving DecidableEq, Repr

/-- One step of `setupRealScrollParallax`: wheel events are not observed
(no listener is attached in this mode). -/
def realStep (s : RealState) : Step → RealState
  | .scroll env => { s with env := env, ticking := true }
  | .wheel _ _ => s
  | .frame =>
      if s.ticking then
        { s with ticking := false, renders := s.env.scrollY :: s.renders }
      else s

/-- Run a RealOnly-mode instance over a trace of steps. -/
def realRun (s : RealState) (steps : List Step) : RealState :=
  steps.foldl realStep s

/-- State of a running `setupVirtualScrollParallax` instance
(lines 156-177): no scroll listener, renders `virtualScrollY`. -/
structure VirtualState where
  ticking : Bool
  virtualScrollY : ℚ
  renders : List ℚ
deriving DecidableEq, Repr

/-- One step of `setupVirtualScrollParallax`: scroll events are not
observed (no listener is attached in this mode). -/
def virtualStep (cfg : VirtualScrollConfig) (s : VirtualState) :
    Step → VirtualState
  | .scroll _ => s
  | .wheel _ d =>
      { s with virtualScrollY := virtualOnWheel cfg s.virtualScrollY d,
               ticking := true }
  | .frame =>
      if s.ticking then
        { s with ticking := false, renders := s.virtualScrollY :: s.renders }
      else s

/-- Run a VirtualOnly-mode instance over a trace of steps. -/
def virtualRun (cfg : VirtualScrollConfig) (s : VirtualState)
    (steps : List Step) : VirtualState :=
  steps.foldl (virtualStep cfg) s

/-- Folding the Combined-mode wheel handler over any sequence of
(environment, delta) pairs. -/
def combinedOnWheelFold (cfg : VirtualScrollConfig) (v : ℚ)
    (ws : List (Env × ℚ)) : ℚ :=
  ws.foldl (fun a w => (combinedOnWheel cfg w.1 a w.2).1) v

/-- A step whose carried browser reading has nonnegative `scrollY`
(frame boundaries carry no reading). -/
def stepScrollOK : Step → Prop
  | .scroll env => 0 ≤ env.scrollY
  | .wheel env _ => 0 ≤ env.scrollY
  | .frame => True

/-- A page state for the C9 witness: layer 2 is missing, the others exist
with a zero transform. -/
def domMissing2 : ℕ → Option ℚ :=
  fun i => if i = 2 then none else some 0

/-- C1: in Combined mode with scrollable content, starting at the bottom of
real scroll (`realScroll = maxRealScroll`) with `virtualOffset = 0`, a wheel
delta of +100 with sensitivity 1 and maxOffset 2000 sets `virtualOffset` to
100 and makes the effective position equal `maxRealScroll + 100`. -/
theorem combined_bottom_forward_wheel (env : Env)
    (hscrollable : 5 < maxRealScroll env)
    (hbottom : env.scrollY = maxRealScroll env) :
    combinedOnWheel CONFIG_virtualScroll env 0 100 = (100, false) ∧
    getEffectiveScroll env 100 = (maxRealScroll env + 100, 100) := by
  have h5 : env.scrollY ≥ maxRealScroll env - 5 := by
    rw [hbottom]; linarith
  constructor
  · unfold combinedOnWheel
    rw [if_pos hscrollable, if_pos ⟨h5, by norm_num⟩]
    norm_num [CONFIG_virtualScroll]
  · unfold getEffectiveScroll
    rw [if_pos h5, hbottom]

/-- Closed witness for C1: a page with 1000 units of extra real scroll,
scrolled to the bottom. -/
theorem combined_bottom_forward_wheel_witness :
    combinedOnWheel CONFIG_virtualScroll ⟨1000, 1800, 800⟩ 0 100 = (100, false) ∧
    getEffectiveScroll ⟨1000, 1800, 800⟩ 100 = (maxRealScroll ⟨1000, 1800, 800⟩ + 100, 100) :=
  combined_bottom_forward_wheel ⟨1000, 1800, 800⟩
    (by norm_num [maxRealScroll]) (by norm_num [maxRealScroll])

/-- C2: in Combined mode with scrollable content, from any state with
`virtualOffset > 0`, a negative wheel delta decreases `virtualOffset` by
`|delta| * sensitivity` clamped below at 0, and `preventDefault` runs iff
the offset remains positive afterwards. -/
theorem combined_backward_wheel (cfg : VirtualScrollConfig) (env : Env)
    (v d : ℚ) (hscrollable : 5 < maxRealScroll env)
    (hv : 0 < v) (hd : d < 0) :
    (combinedOnWheel cfg env v d).1 = max 0 (v - |d| * cfg.sensitivity) ∧
    ((combinedOnWheel cfg env v d).2 = true ↔
      0 < (combinedOnWheel cfg env v d).1) := by
  have habs : v + d * cfg.sensitivity = v - |d| * cfg.sensitivity := by
    rw [abs_of_neg hd]; ring
  have hnotfwd : ¬ (env.scrollY ≥ maxRealScroll env - 5 ∧ 0 < d) := by
    rintro ⟨-, h⟩; linarith
  unfold combinedOnWheel
  rw [if_pos hscrollable, if_neg hnotfwd, if_pos ⟨hv, hd⟩]
  refine ⟨by rw [habs], ?_⟩
  simp [habs]

/-- Closed witness for C2, the spec's scenario: `virtualOffset = 100`,
delta `-30`, sensitivity 1 on a page with 1000 units of real scroll. -/
theorem combined_backward_wheel_witness :
    (combinedOnWheel CONFIG_virtualScroll ⟨1000, 1800, 800⟩ 100 (-30)).1 =
      max 0 (100 - |(-30 : ℚ)| * CONFIG_virtualScroll.sensitivity) ∧
    ((combinedOnWheel CONFIG_virtualScroll ⟨1000, 1800, 800⟩ 100 (-30)).2 = true ↔
      0 < (combinedOnWheel CONFIG_virtualScroll ⟨1000, 1800, 800⟩ 100 (-30)).1) :=
  combined_backward_wheel CONFIG_virtualScroll ⟨1000, 1800, 800⟩ 100 (-30)
    (by norm_num [maxRealScroll]) (by norm_num) (by norm_num)

/-- C6 counterexample: evaluating the Combined-mode effective position is
not a pure read — at `scrollY = 0` on a page whose maximum real scroll is
1000, `getEffectiveScroll` changes `virtualScrollY` from 100 to 0. -/
theorem getEffectiveScroll_mutates :
    (getEffectiveScroll ⟨0, 1800, 800⟩ 100).2 ≠ 100 := by
  norm_num [getEffectiveScroll, maxRealScroll]

/-- C6 (amended): `getEffectiveScroll` computes its result only from the
current real scroll reading and `virtualOffset`; it is a pure read (leaves
`virtualOffset` unchanged) exactly when the real scroll is within the
5-unit tolerance of the bottom, and otherwise it resets `virtualOffset`
to 0 as a side effect while returning the bare real scroll. -/
theorem getEffectiveScroll_characterization (env : Env) (v : ℚ) :
    (env.scrollY ≥ maxRealScroll env - 5 →
      getEffectiveScroll env v = (env.scrollY + v, v)) ∧
    (¬ env.scrollY ≥ maxRealScroll env - 5 →
      getEffectiveScroll env v = (env.scrollY, 0)) := by
  unfold getEffectiveScroll
  constructor
  · intro h; rw [if_pos h]
  · intro h; rw [if_neg h]

/-- Closed witness for C6 (amended): at the bottom the read is pure. -/
theorem getEffectiveScroll_characterization_witness :
    getEffectiveScroll ⟨1000, 1800, 800⟩ 7 = (1000 + 7, 7) :=
  (getEffectiveScroll_characterization ⟨1000, 1800, 800⟩ 7).1
    (by norm_num [maxRealScroll])

/-- C3: in Combined mode, whenever the real scroll offset moves to a value
below the 5-unit tolerance of the maximum scrollable offset, the next
real-scroll-driven update (scroll event followed by its frame callback)
resets `virtualOffset` to 0. -/
theorem combined_scroll_away_resets (cfg : VirtualScrollConfig)
    (s : CombinedState) (env : Env)
    (haway : env.scrollY < maxRealScroll env - 5) :
    (combinedStep cfg (combinedStep cfg s (Step.scroll env))
      Step.frame).virtualScrollY = 0 := by
  have h : ¬ env.scrollY ≥ maxRealScroll env - 5 := not_le.mpr haway
  simp [combinedStep, getEffectiveScroll, h]

/-- Closed witness for C3: from `virtualOffset = 100` at the bottom of a
1000-unit page, the user scrolls back to the top. -/
theorem combined_scroll_away_resets_witness :
    (combinedStep CONFIG_virtualScroll
      (combinedStep CONFIG_virtualScroll ⟨false, ⟨1000, 1800, 800⟩, 100, []⟩
        (Step.scroll ⟨0, 1800, 800⟩))
      Step.frame).virtualScrollY = 0 :=
  combined_scroll_away_resets CONFIG_virtualScroll
    ⟨false, ⟨1000, 1800, 800⟩, 100, []⟩ ⟨0, 1800, 800⟩
    (by norm_num [maxRealScroll])

/-- C10: in Combined mode on a page that is not scrollable
(`maxRealScroll ≤ 5`), the wheel handler never calls `preventDefault`,
whatever the delta and the current `virtualOffset`. -/
theorem short_page_never_prevents (cfg : VirtualScrollConfig) (env : Env)
    (v d : ℚ) (hshort : maxRealScroll env ≤ 5) :
    (combinedOnWheel cfg env v d).2 = false := by
  unfold combinedOnWheel
  rw [if_neg (by linarith)]

/-- Closed witness for C10: a short page (content 500, viewport 800),
a backward delta while `virtualOffset` is positive. -/
theorem short_page_never_prevents_witness :
    (combinedOnWheel CONFIG_virtualScroll ⟨0, 500, 800⟩ 100 (-30)).2 = false :=
  short_page_never_prevents CONFIG_virtualScroll ⟨0, 500, 800⟩ 100 (-30)
    (by norm_num [maxRealScroll])

/-- Pointwise effect of one loop iteration of `updateStarPositions`. -/
theorem applyLayer_apply (p : ℚ) (dom : ℕ → Option ℚ) (i j : ℕ) :
    applyLayer p dom i j =
      if j = i ∧ (dom i).isSome then some (layerOffset p i) else dom j := by
  unfold applyLayer
  cases h : dom i with
  | none => simp [h]
  | some t =>
    by_cases hj : j = i <;> simp [h, hj]

/-- Pointwise characterization of the whole render pass: a present layer
in 1..5 receives `layerOffset`, everything else is untouched. -/
theorem updateStarPositions_apply (p : ℚ) (dom : ℕ → Option ℚ) (j : ℕ) :
    updateStarPositions p dom j =
      if 1 ≤ j ∧ j ≤ 5 ∧ (dom j).isSome then some (layerOffset p j)
      else dom j := by
  have hr : List.range' 1 5 = [1, 2, 3, 4, 5] := rfl
  unfold updateStarPositions
  rw [hr]
  simp only [List.foldl]
  by_cases h1 : j = 1
  · subst h1; cases h : dom 1 <;> simp [applyLayer_apply, h]
  · by_cases h2 : j = 2
    · subst h2; cases h : dom 2 <;> simp [applyLayer_apply, h]
    · by_cases h3 : j = 3
      · subst h3; cases h : dom 3 <;> simp [applyLayer_apply, h]
      · by_cases h4 : j = 4
        · subst h4; cases h : dom 4 <;> simp [applyLayer_apply, h]
        · by_cases h5 : j = 5
          · subst h5; cases h : dom 5 <;> simp [applyLayer_apply, h]
          · have hcond : ¬(1 ≤ j ∧ j ≤ 5 ∧ (dom j).isSome) := by
              rintro ⟨ha, hb, -⟩; omega
            simp [applyLayer_apply, h1, h2, h3, h4, h5, hcond]

/-- C8: with the configured coefficients 1.0 > 0.7 > 0.45 > 0.25 > 0.10 > 0,
rendering any position `p > 0` yields layer offsets `-p * ci` whose
absolute values strictly decrease from layer 1 to layer 5. -/
theorem layer_offsets_strictly_decreasing (p : ℚ) (hp : 0 < p) :
    (parallaxCoeff 1 > parallaxCoeff 2 ∧ parallaxCoeff 2 > parallaxCoeff 3 ∧
     parallaxCoeff 3 > parallaxCoeff 4 ∧ parallaxCoeff 4 > parallaxCoeff 5 ∧
     parallaxCoeff 5 > 0) ∧
    (|layerOffset p 1| > |layerOffset p 2| ∧
     |layerOffset p 2| > |layerOffset p 3| ∧
     |layerOffset p 3| > |layerOffset p 4| ∧
     |layerOffset p 4| > |layerOffset p 5|) := by
  have key : ∀ i : ℕ, 0 ≤ parallaxCoeff i →
      |layerOffset p i| = p * parallaxCoeff i := by
    intro i hc
    rw [layerOffset, neg_mul, abs_neg, abs_mul, abs_of_pos hp, abs_of_nonneg hc]
  refine ⟨by norm_num [parallaxCoeff], ?_⟩
  rw [key 1 (by norm_num [parallaxCoeff]), key 2 (by norm_num [parallaxCoeff]),
      key 3 (by norm_num [parallaxCoeff]), key 4 (by norm_num [parallaxCoeff]),
      key 5 (by norm_num [parallaxCoeff])]
  norm_num [parallaxCoeff]
  refine ⟨?_, ?_, ?_, ?_⟩ <;> nlinarith

/-- Closed witness for C8 at position 4. -/
theorem layer_offsets_strictly_decreasing_witness :
    (parallaxCoeff 1 > parallaxCoeff 2 ∧ parallaxCoeff 2 > parallaxCoeff 3 ∧
     parallaxCoeff 3 > parallaxCoeff 4 ∧ parallaxCoeff 4 > parallaxCoeff 5 ∧
     parallaxCoeff 5 > 0) ∧
    (|layerOffset 4 1| > |layerOffset 4 2| ∧
     |layerOffset 4 2| > |layerOffset 4 3| ∧
     |layerOffset 4 3| > |layerOffset 4 4| ∧
     |layerOffset 4 4| > |layerOffset 4 5|) :=
  layer_offsets_strictly_decreasing 4 (by norm_num)

/-- C9: for every position and every pattern of missing layer surfaces,
the render pass leaves each missing layer untouched and still applies the
correct offset to every present layer among 1..5; being a total function,
it never aborts. -/
theorem updateStarPositions_skips_missing (p : ℚ) (dom : ℕ → Option ℚ)
    (i : ℕ) :
    (dom i = none → updateStarPositions p dom i = dom i) ∧
    (∀ t, 1 ≤ i → i ≤ 5 → dom i = some t →
      updateStarPositions p dom i = some (layerOffset p i)) := by
  constructor
  · intro h
    rw [updateStarPositions_apply]
    simp [h]
  · intro t h1 h5 h
    rw [updateStarPositions_apply]
    simp [h, h1, h5]

/-- Closed witness for C9: with layer 2 missing, the pass leaves layer 2
missing and still writes the correct offset to layer 1. -/
theorem updateStarPositions_skips_missing_witness :
    updateStarPositions 3 domMissing2 2 = domMissing2 2 ∧
    updateStarPositions 3 domMissing2 1 = some (layerOffset 3 1) :=
  ⟨(updateStarPositions_skips_missing 3 domMissing2 2).1 rfl,
   (updateStarPositions_skips_missing 3 domMissing2 1).2 0
     (by norm_num) (by norm_num) rfl⟩

/-- The pure-virtual wheel handler never drives the offset below 0. -/
theorem virtualOnWheel_nonneg (cfg : VirtualScrollConfig) (v d : ℚ) :
    0 ≤ virtualOnWheel cfg v d :=
  le_max_left 0 _

/-- The pure-virtual wheel handler never exceeds `maxOffset`. -/
theorem virtualOnWheel_le (cfg : VirtualScrollConfig)
    (hm : 0 ≤ cfg.maxOffset) (v d : ℚ) :
    virtualOnWheel cfg v d ≤ cfg.maxOffset :=
  max_le hm (min_le_left _ _)

/-- The Combined-mode wheel handler keeps the offset nonnegative. -/
theorem combinedOnWheel_fst_nonneg (cfg : VirtualScrollConfig)
    (hs : 0 ≤ cfg.sensitivity) (hm : 0 ≤ cfg.maxOffset) (env : Env)
    (v d : ℚ) (hv0 : 0 ≤ v) :
    0 ≤ (combinedOnWheel cfg env v d).1 := by
  unfold combinedOnWheel
  by_cases hM : 5 < maxRealScroll env
  · rw [if_pos hM]
    by_cases hfwd : env.scrollY ≥ maxRealScroll env - 5 ∧ 0 < d
    · rw [if_pos hfwd]
      exact le_min hm (by nlinarith [mul_nonneg (le_of_lt hfwd.2) hs])
    · rw [if_neg hfwd]
      by_cases hback : 0 < v ∧ d < 0
      · rw [if_pos hback]
        exact le_max_left _ _
      · rw [if_neg hback]
        exact hv0
  · rw [if_neg hM]
    exact le_max_left _ _

/-- The Combined-mode wheel handler keeps the offset at most `maxOffset`. -/
theorem combinedOnWheel_fst_le (cfg : VirtualScrollConfig)
    (hs : 0 ≤ cfg.sensitivity) (hm : 0 ≤ cfg.maxOffset) (env : Env)
    (v d : ℚ) (hv0 : 0 ≤ v) (hvm : v ≤ cfg.maxOffset) :
    (combinedOnWheel cfg env v d).1 ≤ cfg.maxOffset := by
  unfold combinedOnWheel
  by_cases hM : 5 < maxRealScroll env
  · rw [if_pos hM]
    by_cases hfwd : env.scrollY ≥ maxRealScroll env - 5 ∧ 0 < d
    · rw [if_pos hfwd]
      exact min_le_left _ _
    · rw [if_neg hfwd]
      by_cases hback : 0 < v ∧ d < 0
      · rw [if_pos hback]
        have hmul : d * cfg.sensitivity ≤ 0 :=
          mul_nonpos_iff.mpr (Or.inr ⟨le_of_lt hback.2, hs⟩)
        exact max_le hm (by linarith)
      · rw [if_neg hback]
        exact hvm
  · rw [if_neg hM]
    exact max_le hm (min_le_left _ _)

/-- Folding the pure-virtual wheel handler over any delta sequence keeps
the offset within `[0, maxOffset]`. -/
theorem virtualOnWheel_foldl_bounds (cfg : VirtualScrollConfig)
    (hm : 0 ≤ cfg.maxOffset) :
    ∀ (ds : List ℚ) (v : ℚ), 0 ≤ v → v ≤ cfg.maxOffset →
      0 ≤ ds.foldl (virtualOnWheel cfg) v ∧
      ds.foldl (virtualOnWheel cfg) v ≤ cfg.maxOffset
  | [], _, hv0, hvm => ⟨hv0, hvm⟩
  | d :: ds, v, _, _ =>
      virtualOnWheel_foldl_bounds cfg hm ds (virtualOnWheel cfg v d)
        (virtualOnWheel_nonneg cfg v d) (virtualOnWheel_le cfg hm v d)

/-- Folding the Combined-mode wheel handler over any input sequence keeps
the offset within `[0, maxOffset]`. -/
theorem combinedOnWheelFold_bounds (cfg : VirtualScrollConfig)
    (hs : 0 ≤ cfg.sensitivity) (hm : 0 ≤ cfg.maxOffset) :
    ∀ (ws : List (Env × ℚ)) (v : ℚ), 0 ≤ v → v ≤ cfg.maxOffset →
      0 ≤ combinedOnWheelFold cfg v ws ∧
      combinedOnWheelFold cfg v ws ≤ cfg.maxOffset
  | [], _, hv0, hvm => ⟨hv0, hvm⟩
  | w :: ws, v, hv0, hvm =>
      combinedOnWheelFold_bounds cfg hs hm ws
        ((combinedOnWheel cfg w.1 v w.2).1)
        (combinedOnWheel_fst_nonneg cfg hs hm w.1 v w.2 hv0)
        (combinedOnWheel_fst_le cfg hs hm w.1 v w.2 hv0 hvm)

/-- Running a VirtualOnly instance keeps the offset and every rendered
position within `[0, maxOffset]`. -/
theorem virtualRun_bounds (cfg : VirtualScrollConfig)
    (hm : 0 ≤ cfg.maxOffset) :
    ∀ (steps : List Step) (s : VirtualState),
      0 ≤ s.virtualScrollY → s.virtualScrollY ≤ cfg.maxOffset →
      (∀ r ∈ s.renders, 0 ≤ r ∧ r ≤ cfg.maxOffset) →
      0 ≤ (virtualRun cfg s steps).virtualScrollY ∧
      (virtualRun cfg s steps).virtualScrollY ≤ cfg.maxOffset ∧
      ∀ r ∈ (virtualRun cfg s steps).renders, 0 ≤ r ∧ r ≤ cfg.maxOffset
  | [], _, hv0, hvm, hr => ⟨hv0, hvm, hr⟩
  | st :: steps, s, hv0, hvm, hr => by
      have hstep : 0 ≤ (virtualStep cfg s st).virtualScrollY ∧
          (virtualStep cfg s st).virtualScrollY ≤ cfg.maxOffset ∧
          ∀ r ∈ (virtualStep cfg s st).renders, 0 ≤ r ∧ r ≤ cfg.maxOffset := by
        cases st with
        | scroll env => exact ⟨hv0, hvm, hr⟩
        | wheel env d =>
            exact ⟨virtualOnWheel_nonneg cfg _ _, virtualOnWheel_le cfg hm _ _, hr⟩
        | frame =>
            by_cases ht : s.ticking = true
            · simp only [virtualStep, if_pos ht]
              refine ⟨hv0, hvm, ?_⟩
              intro r hrr
              rcases List.mem_cons.mp hrr with h | h
              · subst h; exact ⟨hv0, hvm⟩
              · exact hr r h
            · simp only [virtualStep, if_neg ht]
              exact ⟨hv0, hvm, hr⟩
      exact virtualRun_bounds cfg hm steps (virtualStep cfg s st)
        hstep.1 hstep.2.1 hstep.2.2

/-- C4: for every sequence of wheel deltas of either sign and any
magnitude, the virtual offset stays within `[0, maxOffset]` after every
wheel-handling step — in the pure-virtual handler, in every branch of the
Combined-mode wheel policy, and (in particular) for every rendered
effective position of a VirtualOnly run. -/
theorem virtual_offset_bounded (cfg : VirtualScrollConfig)
    (hs : 0 ≤ cfg.sensitivity) (hm : 0 ≤ cfg.maxOffset)
    (v : ℚ) (hv0 : 0 ≤ v) (hvm : v ≤ cfg.maxOffset) :
    (∀ env d, 0 ≤ (combinedOnWheel cfg env v d).1 ∧
      (combinedOnWheel cfg env v d).1 ≤ cfg.maxOffset) ∧
    (∀ d, 0 ≤ virtualOnWheel cfg v d ∧
      virtualOnWheel cfg v d ≤ cfg.maxOffset) ∧
    (∀ ds : List ℚ, 0 ≤ ds.foldl (virtualOnWheel cfg) v ∧
      ds.foldl (virtualOnWheel cfg) v ≤ cfg.maxOffset) ∧
    (∀ ws : List (Env × ℚ), 0 ≤ combinedOnWheelFold cfg v ws ∧
      combinedOnWheelFold cfg v ws ≤ cfg.maxOffset) ∧
    (∀ steps : List Step,
      ∀ r ∈ (virtualRun cfg ⟨false, v, []⟩ steps).renders,
        0 ≤ r ∧ r ≤ cfg.maxOffset) := by
  refine ⟨?_, ?_, ?_, ?_, ?_⟩
  · intro env d
    exact ⟨combinedOnWheel_fst_nonneg cfg hs hm env v d hv0,
      combinedOnWheel_fst_le cfg hs hm env v d hv0 hvm⟩
  · intro d
    exact ⟨virtualOnWheel_nonneg cfg v d, virtualOnWheel_le cfg hm v d⟩
  · intro ds
    exact virtualOnWheel_foldl_bounds cfg hm ds v hv0 hvm
  · intro ws
    exact combinedOnWheelFold_bounds cfg hs hm ws v hv0 hvm
  · intro steps
    exact (virtualRun_bounds cfg hm steps ⟨false, v, []⟩ hv0 hvm
      (by intro r hr; cases hr)).2.2

/-- Closed witness for C4 with the source configuration: a forward wheel
at the bottom of a scrollable page, from offset 0. -/
theorem virtual_offset_bounded_witness :
    0 ≤ (combinedOnWheel CONFIG_virtualScroll ⟨1000, 1800, 800⟩ 0 100).1 ∧
    (combinedOnWheel CONFIG_virtualScroll ⟨1000, 1800, 800⟩ 0 100).1 ≤
      CONFIG_virtualScroll.maxOffset :=
  (virtual_offset_bounded CONFIG_virtualScroll
    (by norm_num [CONFIG_virtualScroll]) (by norm_num [CONFIG_virtualScroll])
    0 le_rfl (by norm_num [CONFIG_virtualScroll])).1 ⟨1000, 1800, 800⟩ 100

/-- `getEffectiveScroll` returns a nonnegative position and offset when
the real scroll reading and the current offset are nonnegative. -/
theorem getEffectiveScroll_nonneg (env : Env) (v : ℚ)
    (he : 0 ≤ env.scrollY) (hv : 0 ≤ v) :
    0 ≤ (getEffectiveScroll env v).1 ∧ 0 ≤ (getEffectiveScroll env v).2 := by
  unfold getEffectiveScroll
  by_cases h : env.scrollY ≥ maxRealScroll env - 5
  · rw [if_pos h]
    refine ⟨?_, hv⟩
    show 0 ≤ env.scrollY + v
    linarith
  · rw [if_neg h]
    exact ⟨he, le_refl 0⟩

/-- Running a Combined-mode instance over steps with nonnegative scroll
readings keeps the offset, the stored reading, and every rendered
position nonnegative. -/
theorem combinedRun_nonneg (cfg : VirtualScrollConfig)
    (hs : 0 ≤ cfg.sensitivity) (hm : 0 ≤ cfg.maxOffset) :
    ∀ (steps : List Step) (s : CombinedState),
      (∀ st ∈ steps, stepScrollOK st) →
      0 ≤ s.virtualScrollY → 0 ≤ s.env.scrollY →
      (∀ r ∈ s.renders, 0 ≤ r) →
      0 ≤ (combinedRun cfg s steps).virtualScrollY ∧
      0 ≤ (combinedRun cfg s steps).env.scrollY ∧
      ∀ r ∈ (combinedRun cfg s steps).renders, 0 ≤ r
  | [], _, _, hv, he, hr => ⟨hv, he, hr⟩
  | st :: steps, s, hok, hv, he, hr => by
      have hok1 : stepScrollOK st := hok st (List.mem_cons_self _ _)
      have hoks : ∀ x ∈ steps, stepScrollOK x :=
        fun x hx => hok x (List.mem_cons_of_mem _ hx)
      have hstep : 0 ≤ (combinedStep cfg s st).virtualScrollY ∧
          0 ≤ (combinedStep cfg s st).env.scrollY ∧
          ∀ r ∈ (combinedStep cfg s st).renders, 0 ≤ r := by
        cases st with
        | scroll env => exact ⟨hv, hok1, hr⟩
        | wheel env d =>
            exact ⟨combinedOnWheel_fst_nonneg cfg hs hm env s.virtualScrollY d hv,
              hok1, hr⟩
        | frame =>
            by_cases ht : s.ticking = true
            · simp only [combinedStep, if_pos ht]
              have hg := getEffectiveScroll_nonneg s.env s.virtualScrollY he hv
              refine ⟨hg.2, he, ?_⟩
              intro r hrr
              rcases List.mem_cons.mp hrr with h | h
              · subst h; exact hg.1
              · exact hr r h
            · simp only [combinedStep, if_neg ht]
              exact ⟨hv, he, hr⟩
      exact combinedRun_nonneg cfg hs hm steps _ hoks hstep.1 hstep.2.1 hstep.2.2

/-- Running a RealOnly instance over steps with nonnegative scroll
readings keeps the stored reading and every rendered position
nonnegative. -/
theorem realRun_nonneg :
    ∀ (steps : List Step) (s : RealState),
      (∀ st ∈ steps, stepScrollOK st) →
      0 ≤ s.env.scrollY → (∀ r ∈ s.renders, 0 ≤ r) →
      0 ≤ (realRun s steps).env.scrollY ∧
      ∀ r ∈ (realRun s steps).renders, 0 ≤ r
  | [], _, _, he, hr => ⟨he, hr⟩
  | st :: steps, s, hok, he, hr => by
      have hok1 : stepScrollOK st := hok st (List.mem_cons_self _ _)
      have hoks : ∀ x ∈ steps, stepScrollOK x :=
        fun x hx => hok x (List.mem_cons_of_mem _ hx)
      have hstep : 0 ≤ (realStep s st).env.scrollY ∧
          ∀ r ∈ (realStep s st).renders, 0 ≤ r := by
        cases st with
        | scroll env => exact ⟨hok1, hr⟩
        | wheel env d => exact ⟨he, hr⟩
        | frame =>
            by_cases ht : s.ticking = true
            · simp only [realStep, if_pos ht]
              refine ⟨he, ?_⟩
              intro r hrr
              rcases List.mem_cons.mp hrr with h | h
              · subst h; exact he
              · exact hr r h
            · simp only [realStep, if_neg ht]
              exact ⟨he, hr⟩
      exact realRun_nonneg steps _ hoks hstep.1 hstep.2

/-- C5: in every scroll mode, for every sequence of scroll, wheel and
frame inputs whose scroll readings are nonnegative, every position passed
to the renderer is nonnegative — in the Combined forward branch this rests
on the positive-delta guard, there being no lower clamp there. -/
theorem effective_position_nonneg (cfg : VirtualScrollConfig)
    (hs : 0 ≤ cfg.sensitivity) (hm : 0 ≤ cfg.maxOffset)
    (steps : List Step) (hsteps : ∀ st ∈ steps, stepScrollOK st)
    (env0 : Env) (h0 : 0 ≤ env0.scrollY) :
    (∀ r ∈ (combinedRun cfg ⟨false, env0, 0, []⟩ steps).renders, 0 ≤ r) ∧
    (∀ r ∈ (realRun ⟨false, env0, []⟩ steps).renders, 0 ≤ r) ∧
    (∀ r ∈ (virtualRun cfg ⟨false, 0, []⟩ steps).renders, 0 ≤ r) := by
  refine ⟨?_, ?_, ?_⟩
  · exact (combinedRun_nonneg cfg hs hm steps ⟨false, env0, 0, []⟩ hsteps
      le_rfl h0 (by intro r hr; cases hr)).2.2
  · exact (realRun_nonneg steps ⟨false, env0, []⟩ hsteps h0
      (by intro r hr; cases hr)).2
  · intro r hr
    exact ((virtualRun_bounds cfg hm steps ⟨false, 0, []⟩ le_rfl hm
      (by intro x hx; cases hx)).2.2 r hr).1

/-- Closed witness for C5: one scroll event to offset 10 followed by a
frame; the rendered position 10 is nonnegative. -/
theorem effective_position_nonneg_witness : (0 : ℚ) ≤ 10 :=
  (effective_position_nonneg CONFIG_virtualScroll
    (by norm_num [CONFIG_virtualScroll]) (by norm_num [CONFIG_virtualScroll])
    [Step.scroll ⟨10, 1800, 800⟩, Step.frame]
    (by norm_num [stepScrollOK]) ⟨0, 1800, 800⟩ le_rfl).1 10
    (by norm_num [combinedRun, combinedStep, getEffectiveScroll, maxRealScroll])

/-- Any scroll or wheel event leaves the Combined-mode `ticking` flag set
(a frame callback is scheduled). -/
theorem combinedStep_input_ticking (cfg : VirtualScrollConfig)
    (s : CombinedState) (e : Step) (he : e ≠ Step.frame) :
    (combinedStep cfg s e).ticking = true := by
  cases e with
  | scroll env => rfl
  | wheel env d => rfl
  | frame => exact absurd rfl he

/-- Between frame boundaries, once `ticking` is set it stays set. -/
theorem combinedRun_ticking_mono (cfg : VirtualScrollConfig) :
    ∀ (events : List Step) (s : CombinedState),
      (∀ e ∈ events, e ≠ Step.frame) → s.ticking = true →
      (combinedRun cfg s events).ticking = true
  | [], _, _, ht => ht
  | e :: es, s, h, _ => by
      have hes : ∀ x ∈ es, x ≠ Step.frame :=
        fun x hx => h x (List.mem_cons_of_mem _ hx)
      exact combinedRun_ticking_mono cfg es _ hes
        (combinedStep_input_ticking cfg s e (h e (List.mem_cons_self _ _)))

/-- Scroll and wheel events alone never invoke the renderer: without a
frame boundary the render log is untouched. -/
theorem combinedRun_no_frame_renders (cfg : VirtualScrollConfig) :
    ∀ (events : List Step) (s : CombinedState),
      (∀ e ∈ events, e ≠ Step.frame) →
      (combinedRun cfg s events).renders = s.renders
  | [], _, _ => rfl
  | e :: es, s, h => by
      have hes : ∀ x ∈ es, x ≠ Step.frame :=
        fun x hx => h x (List.mem_cons_of_mem _ hx)
      have h1 : (combinedStep cfg s e).renders = s.renders := by
        cases e with
        | scroll env => rfl
        | wheel env d => rfl
        | frame => exact absurd rfl (h _ (List.mem_cons_self _ _))
      calc (combinedRun cfg (combinedStep cfg s e) es).renders
          = (combinedStep cfg s e).renders :=
            combinedRun_no_frame_renders cfg es _ hes
        _ = s.renders := h1

/-- RealOnly analogue: once set, `ticking` survives input events. -/
theorem realRun_ticking_mono :
    ∀ (events : List Step) (s : RealState),
      (∀ e ∈ events, e ≠ Step.frame) → s.ticking = true →
      (realRun s events).ticking = true
  | [], _, _, ht => ht
  | e :: es, s, h, ht => by
      have hes : ∀ x ∈ es, x ≠ Step.frame :=
        fun x hx => h x (List.mem_cons_of_mem _ hx)
      have h1 : (realStep s e).ticking = true := by
        cases e with
        | scroll env => rfl
        | wheel env d => exact ht
        | frame => exact absurd rfl (h _ (List.mem_cons_self _ _))
      exact realRun_ticking_mono es _ hes h1

/-- RealOnly analogue: input events alone never invoke the renderer. -/
theorem realRun_no_frame_renders :
    ∀ (events : List Step) (s : RealState),
      (∀ e ∈ events, e ≠ Step.frame) →
      (realRun s events).renders = s.renders
  | [], _, _ => rfl
  | e :: es, s, h => by
      have hes : ∀ x ∈ es, x ≠ Step.frame :=
        fun x hx => h x (List.mem_cons_of_mem _ hx)
      have h1 : (realStep s e).renders = s.renders := by
        cases e with
        | scroll env => rfl
        | wheel env d => rfl
        | frame => exact absurd rfl (h _ (List.mem_cons_self _ _))
      calc (realRun (realStep s e) es).renders
          = (realStep s e).renders := realRun_no_frame_renders es _ hes
        _ = s.renders := h1

/-- C7: for every nonempty burst of input events between two frame
boundaries, the renderer runs exactly once at the next frame boundary —
the log grows by one entry, holding the position computed from the state
after the last event — and `ticking` clears again; with no events since
the prior frame, a frame boundary renders nothing. Stated for the
Combined-mode instance (arbitrary scroll/wheel bursts) and the RealOnly
instance (scroll bursts). -/
theorem render_coalescing (cfg : VirtualScrollConfig)
    (s : CombinedState) (hidle : s.ticking = false)
    (events : List Step) (hne : events ≠ [])
    (hinput : ∀ e ∈ events, e ≠ Step.frame)
    (rs : RealState) (hridle : rs.ticking = false)
    (sevents : List Step) (hsne : sevents ≠ [])
    (hscroll : ∀ e ∈ sevents, ∃ env, e = Step.scroll env) :
    ((combinedStep cfg (combinedRun cfg s events) Step.frame).renders.length =
        s.renders.length + 1 ∧
      (combinedStep cfg (combinedRun cfg s events) Step.frame).renders.head? =
        some (getEffectiveScroll (combinedRun cfg s events).env
          (combinedRun cfg s events).virtualScrollY).1 ∧
      (combinedStep cfg (combinedRun cfg s events) Step.frame).ticking = false ∧
      combinedStep cfg s Step.frame = s) ∧
    ((realStep (realRun rs sevents) Step.frame).renders.length =
        rs.renders.length + 1 ∧
      (realStep (realRun rs sevents) Step.frame).renders.head? =
        some (realRun rs sevents).env.scrollY ∧
      (realStep (realRun rs sevents) Step.frame).ticking = false ∧
      realStep rs Step.frame = rs) := by
  have hsinput : ∀ e ∈ sevents, e ≠ Step.frame := by
    intro e he
    obtain ⟨env, rfl⟩ := hscroll e he
    simp
  have ht : (combinedRun cfg s events).ticking = true := by
    cases events with
    | nil => exact absurd rfl hne
    | cons e es =>
        have hes : ∀ x ∈ es, x ≠ Step.frame :=
          fun x hx => hinput x (List.mem_cons_of_mem _ hx)
        exact combinedRun_ticking_mono cfg es _ hes
          (combinedStep_input_ticking cfg s e (hinput e (List.mem_cons_self _ _)))
  have hrt : (realRun rs sevents).ticking = true := by
    cases sevents with
    | nil => exact absurd rfl hsne
    | cons e es =>
        have hes : ∀ x ∈ es, x ≠ Step.frame :=
          fun x hx => hsinput x (List.mem_cons_of_mem _ hx)
        obtain ⟨env, rfl⟩ := hscroll e (List.mem_cons_self _ _)
        exact realRun_ticking_mono es _ hes rfl
  have hrend := combinedRun_no_frame_renders cfg events s hinput
  have hrrend := realRun_no_frame_renders sevents rs hsinput
  refine ⟨⟨?_, ?_, ?_, ?_⟩, ?_, ?_, ?_, ?_⟩
  · simp [combinedStep, ht, hrend]
  · simp [combinedStep, ht]
  · simp [combinedStep, ht]
  · simp [combinedStep, hidle]
  · simp [realStep, hrt, hrrend]
  · simp [realStep, hrt]
  · simp [realStep, hrt]
  · simp [realStep, hridle]

/-- Closed witness for C7: a scroll then a wheel event before one frame in
Combined mode, and one scroll event before one frame in RealOnly mode. -/
theorem render_coalescing_witness :
    ((combinedStep CONFIG_virtualScroll
        (combinedRun CONFIG_virtualScroll ⟨false, ⟨0, 1800, 800⟩, 0, []⟩
          [Step.scroll ⟨5, 1800, 800⟩, Step.wheel ⟨10, 1800, 800⟩ 3])
        Step.frame).renders.length =
        ([] : List ℚ).length + 1 ∧
      (combinedStep CONFIG_virtualScroll
        (combinedRun CONFIG_virtualScroll ⟨false, ⟨0, 1800, 800⟩, 0, []⟩
          [Step.scroll ⟨5, 1800, 800⟩, Step.wheel ⟨10, 1800, 800⟩ 3])
        Step.frame).renders.head? =
        some (getEffectiveScroll
          (combinedRun CONFIG_virtualScroll ⟨false, ⟨0, 1800, 800⟩, 0, []⟩
            [Step.scroll ⟨5, 1800, 800⟩, Step.wheel ⟨10, 1800, 800⟩ 3]).env
          (combinedRun CONFIG_virtualScroll ⟨false, ⟨0, 1800, 800⟩, 0, []⟩
            [Step.scroll ⟨5, 1800, 800⟩, Step.wheel ⟨10, 1800, 800⟩ 3]).virtualScrollY).1 ∧
      (combinedStep CONFIG_virtualScroll
        (combinedRun CONFIG_virtualScroll ⟨false, ⟨0, 1800, 800⟩, 0, []⟩
          [Step.scroll ⟨5, 1800, 800⟩, Step.wheel ⟨10, 1800, 800⟩ 3])
        Step.frame).ticking = false ∧
      combinedStep CONFIG_virtualScroll ⟨false, ⟨0, 1800, 800⟩, 0, []⟩
        Step.frame = ⟨false, ⟨0, 1800, 800⟩, 0, []⟩) ∧
    ((realStep (realRun ⟨false, ⟨0, 1800, 800⟩, []⟩
        [Step.scroll ⟨7, 1800, 800⟩]) Step.frame).renders.length =
        ([] : List ℚ).length + 1 ∧
      (realStep (realRun ⟨false, ⟨0, 1800, 800⟩, []⟩
        [Step.scroll ⟨7, 1800, 800⟩]) Step.frame).renders.head? =
        some (realRun ⟨false, ⟨0, 1800, 800⟩, []⟩
          [Step.scroll ⟨7, 1800, 800⟩]).env.scrollY ∧
      (realStep (realRun ⟨false, ⟨0, 1800, 800⟩, []⟩
        [Step.scroll ⟨7, 1800, 800⟩]) Step.frame).ticking = false ∧
      realStep ⟨false, ⟨0, 1800, 800⟩, []⟩ Step.frame =
        ⟨false, ⟨0, 1800, 800⟩, []⟩) :=
  render_coalescing CONFIG_virtualScroll ⟨false, ⟨0, 1800, 800⟩, 0, []⟩ rfl
    [Step.scroll ⟨5, 1800, 800⟩, Step.wheel ⟨10, 1800, 800⟩ 3] (by simp)
    (by intro e he; fin_cases he <;> simp)
    ⟨false, ⟨0, 1800, 800⟩, []⟩ rfl
    [Step.scroll ⟨7, 1800, 800⟩] (by simp)
    (by intro e he; fin_cases he; exact ⟨_, rfl⟩)

end Stars
